import Mathlib

/-!
Verification of the Evnts event-listing application (events/views.py).

The persistence layer is embedded as plain Lean lists of records; each
Django view handler is translated into a pure Lean function from the
store (and the request data) to a `ViewResult`.  Django queryset
`filter(...)` calls become `List.filter`, the `|` union of two querysets
over the same table becomes a single filter whose predicate is the
disjunction of the two conditions (which is exactly the SQL the ORM
emits, deduplicated by row identity), `get_object_or_404` and `.get()`
become the `fetchOr404` / `fetchGet` helpers below, and an unhandled
exception escaping the handler is the `ViewResult.raised` outcome.
-/

namespace Evnts

/-- A user of the external identity provider (`request.user`). -/
structure User where
  id : Nat
  isSuperuser : Bool := false
deriving DecidableEq, Repr

/-- A taggit tag record: events reference tags by id. -/
structure Tag where
  id : Nat
  slug : String
deriving DecidableEq, Repr

/-- A category record (events/models.py `Category`). -/
structure Category where
  id : Nat
  name : String
  slug : String
deriving DecidableEq, Repr

/-- An event record (events/models.py `Event`): the fields the view layer
reads.  `userId` is the owning user, `makePrivate` the private flag,
`tags` the ids of attached tags, `usersAttending` the attendee user ids
(the `users_attending` many-to-many set). -/
structure Event where
  id : Nat
  name : String
  slug : String
  category : Nat
  userId : Nat
  makePrivate : Bool
  tags : List Nat
  usersAttending : List Nat
deriving DecidableEq, Repr

/-- Modelled from the spec: `Event.public` manager (models.py is not in
the sources).  §4.1 "Public-only: `private == false`". -/
def publicFilter (e : Event) : Bool := e.makePrivate == false

/-- Modelled from the spec: `Event.private` manager (models.py is not in
the sources).  §4.1 "Owner-private: `private == true` ...". -/
def privateFilter (e : Event) : Bool := e.makePrivate == true

/-! ### Substring matching (`__contains` / `__icontains` lookups) -/

/-- `matchesAt needle hay`: `needle` is a prefix of `hay`. -/
def matchesAt : List Char → List Char → Bool
  | [], _ => true
  | _ :: _, [] => false
  | a :: as, b :: bs => a == b && matchesAt as bs

/-- `containsSub needle hay`: `needle` occurs as a contiguous substring
of `hay` (the SQL `LIKE %needle%`, case-sensitive). -/
def containsSub (needle : List Char) : List Char → Bool
  | [] => matchesAt needle []
  | c :: rest => matchesAt needle (c :: rest) || containsSub needle rest

/-- Django `name__contains=q`: case-sensitive substring test. -/
def strContains (hay q : String) : Bool := containsSub q.toList hay.toList

/-- Django `name__icontains=q`: case-insensitive substring test. -/
def strIContains (hay q : String) : Bool :=
  containsSub (q.toList.map Char.toLower) (hay.toList.map Char.toLower)

theorem matchesAt_iff (needle hay : List Char) :
    matchesAt needle hay = true ↔ needle <+: hay := by
  induction needle generalizing hay with
  | nil => simp [matchesAt, List.nil_prefix]
  | cons a as ih =>
    cases hay with
    | nil => simp [matchesAt]
    | cons b bs =>
      simp [matchesAt, ih, List.cons_prefix_cons]

theorem containsSub_iff (needle hay : List Char) :
    containsSub needle hay = true ↔ needle <:+: hay := by
  induction hay with
  | nil => simp [containsSub, matchesAt_iff, List.infix_iff_prefix_suffix]
  | cons c rest ih =>
    simp [containsSub, matchesAt_iff, ih, List.infix_cons_iff]

/-! ### `django.utils.text.slugify`

For ASCII input (`allow_unicode=False`): lowercase, drop every character
that is not alphanumeric, underscore, whitespace or hyphen, collapse
runs of hyphens/whitespace to a single hyphen, and strip leading and
trailing hyphens and underscores. -/

def isWordChar (c : Char) : Bool := c.isAlphanum || c == '_'

def isSpaceChar (c : Char) : Bool :=
  c == ' ' || c == '\t' || c == '\n' || c == '\r' || c == '\x0b' || c == '\x0c'

def isDashOrSpace (c : Char) : Bool := isSpaceChar c || c == '-'

/-- `re.sub(r"[-\s]+", "-", value)`: collapse each run of hyphens and
whitespace into a single hyphen.  The boolean records whether the
previous character was part of such a run. -/
def collapseRuns : List Char → Bool → List Char
  | [], _ => []
  | c :: rest, inRun =>
    if isDashOrSpace c then
      if inRun then collapseRuns rest true
      else '-' :: collapseRuns rest true
    else c :: collapseRuns rest false

def isStripChar (c : Char) : Bool := c == '-' || c == '_'

/-- Python `str.strip("-_")`. -/
def stripEnds (s : List Char) : List Char :=
  ((s.dropWhile isStripChar).reverse.dropWhile isStripChar).reverse

def slugify (s : String) : String :=
  let lowered := (s.toList.map Char.toLower).filter
    (fun c => isWordChar c || isSpaceChar c || c == '-')
  ⟨stripEnds (collapseRuns lowered false)⟩

example : slugify "Spring Fest" = "spring-fest" := by decide
example : slugify "Spring Fest 2" = "spring-fest-2" := by decide

/-! ### Persistence lookups -/

/-- Outcome of a single-record lookup: `found`, a clean not-found
(`Http404`), or an exception escaping the handler (`DoesNotExist` /
`MultipleObjectsReturned`). -/
inductive Fetched (α : Type) where
  | found : α → Fetched α
  | missing : Fetched α
  | raised : Fetched α
deriving DecidableEq, Repr

/-- `get_object_or_404(Model, **conds)`: a clean 404 when no row
matches, the row when exactly one does, and an unhandled
`MultipleObjectsReturned` when several do. -/
def fetchOr404 {α : Type} (p : α → Bool) (l : List α) : Fetched α :=
  match l.filter p with
  | [x] => .found x
  | [] => .missing
  | _ => .raised

/-- `Model.objects.get(**conds)`: raises `DoesNotExist` when no row
matches and `MultipleObjectsReturned` when several do. -/
def fetchGet {α : Type} (p : α → Bool) (l : List α) : Fetched α :=
  match l.filter p with
  | [x] => .found x
  | _ => .raised

/-! ### View results

One outcome type for all handlers.  `raised` is an exception escaping
the handler (a 500), `noResponse` is a handler falling off the end and
returning `None` (Django then raises, also a 500). -/

inductive ViewResult where
  | renderDetail : Event → List Event → ViewResult
  | renderList : List Event → ViewResult
  | renderForm : ViewResult
  | redirected : String → ViewResult
  | message : String → ViewResult
  | forbidden : ViewResult
  | notFound : ViewResult
  | raised : ViewResult
  | noResponse : ViewResult
deriving DecidableEq, Repr

/-- `get_event(slug)`: `get_object_or_404(Event, slug=slug, make_private=False)`. -/
def get_event (db : List Event) (slug : String) : Fetched Event :=
  fetchOr404 (fun e => e.makePrivate == false && e.slug == slug) db

/-- `get_private_event(slug)`: `get_object_or_404(Event, slug=slug, make_private=True)`. -/
def get_private_event (db : List Event) (slug : String) : Fetched Event :=
  fetchOr404 (fun e => e.makePrivate == true && e.slug == slug) db

/-- `CategoryDetailView.get`: `Category.objects.get(slug=slug)` (which
raises when no category has the slug), then for an authenticated user
the union `public | private-owned` of the category's events, else the
public ones only. -/
def categoryDetailGet (cats : List Category) (db : List Event)
    (user : Option User) (slug : String) : ViewResult :=
  match fetchGet (fun c => c.slug == slug) cats with
  | .found c =>
    match user with
    | some u => .renderList (db.filter (fun e =>
        e.category == c.id &&
          (e.makePrivate == false || (e.makePrivate == true && e.userId == u.id))))
    | none => .renderList (db.filter (fun e =>
        e.category == c.id && e.makePrivate == false))
  | _ => .raised

/-- `EventDetailView.get`: resolve the public event by slug, then the
related events: public events sharing a tag, excluding the event itself,
deduplicated, truncated to 4. -/
def eventDetailGet (db : List Event) (slug : String) : ViewResult :=
  match get_event db slug with
  | .missing => .notFound
  | .raised => .raised
  | .found event =>
    let related := db.filter (fun x =>
      x.makePrivate == false && x.tags.any (fun t => event.tags.contains t)
        && x.id != event.id)
    .renderDetail event (related.take 4)

/-- The comment form, an opaque validator (forms.py is not in the
sources): a validity bit plus the comment body it would save. -/
structure CommentForm where
  valid : Bool
  body : String
deriving DecidableEq, Repr

def addedMsg : String := "This evnt has been added to your evnt list."
def removedMsg : String := "This evnt has been removed from your attend-list"

/-- `request.POST.get(key)` over the posted key/value pairs. -/
def postGet (post : List (String × String)) (key : String) : Option String :=
  (post.find? (fun kv => kv.1 == key)).map Prod.snd

/-- `users_attending.add(user)`: idempotent membership insert. -/
def m2mAdd (l : List Nat) (x : Nat) : List Nat :=
  if x ∈ l then l else l ++ [x]

/-- `users_attending.remove(user)`: delete the membership if present. -/
def m2mRemove (l : List Nat) (x : Nat) : List Nat :=
  l.filter (fun a => a != x)

/-- Persist a change to the event with the given id. -/
def updateEvent (db : List Event) (i : Nat) (f : Event → Event) : List Event :=
  db.map (fun e => if e.id == i then f e else e)

/-- `EventDetailView.post` (login required): resolve the public event by
slug, read the action token keyed by the event id; "Add to attend-list" /
"Remove from attend-list" mutate the attendee set; otherwise fall
through to comment submission: a valid form saves a comment bound to the
event refetched from the slug and redirects; an invalid form reaches the
end of the function, which returns `None`.  Returns the result, the
updated event store and the updated comment store. -/
def eventDetailPost (db : List Event) (comments : List (Nat × String))
    (u : User) (slug : String) (post : List (String × String))
    (form : CommentForm) : ViewResult × List Event × List (Nat × String) :=
  match get_event db slug with
  | .missing => (.notFound, db, comments)
  | .raised => (.raised, db, comments)
  | .found event =>
    let action := postGet post (toString event.id)
    if action = some "Add to attend-list" then
      (.message addedMsg,
       updateEvent db event.id
         (fun e => { e with usersAttending := m2mAdd e.usersAttending u.id }),
       comments)
    else if action = some "Remove from attend-list" then
      (.message removedMsg,
       updateEvent db event.id
         (fun e => { e with usersAttending := m2mRemove e.usersAttending u.id }),
       comments)
    else if form.valid then
      match get_event db slug with
      | .found bound => (.redirected event.slug, db, comments ++ [(bound.id, form.body)])
      | .missing => (.notFound, db, comments)
      | .raised => (.raised, db, comments)
    else (.noResponse, db, comments)

/-- `EventTagView.get`: `Event.objects.filter(tags__slug__contains=slug)`
— all events (the default manager, not the public one) having some tag
whose slug contains the browsed slug — and `get_object_or_404(Tag,
slug=slug)`. -/
def eventTagGet (tagTable : List Tag) (db : List Event) (slug : String) : ViewResult :=
  let events := db.filter (fun e => e.tags.any (fun ti =>
    tagTable.any (fun t => t.id == ti && strContains t.slug slug)))
  match fetchOr404 (fun t => t.slug == slug) tagTable with
  | .found _ => .renderList events
  | .missing => .notFound
  | .raised => .raised

/-- `PrivateEventsView.get` (login required): the user's own private events. -/
def privateEventsGet (db : List Event) (u : User) : ViewResult :=
  .renderList (db.filter (fun e => privateFilter e && e.userId == u.id))

/-- `PrivateEventDetailView.get` (login required): resolve the private
event by slug; a non-owner gets Forbidden; the owner triggers a refetch
`Event.private.get(user=request.user, name=event)` (the event's string
representation — modelled from the spec as its name, models.py being
absent — keyed together with the user), then the related events: the
requester's own public events sharing a tag, excluding the event itself,
truncated to 4. -/
def privateEventDetailGet (db : List Event) (u : User) (slug : String) : ViewResult :=
  match get_private_event db slug with
  | .missing => .notFound
  | .raised => .raised
  | .found event =>
    if u.id = event.userId then
      match fetchGet (fun x => x.makePrivate == true && x.userId == u.id
          && x.name == event.name) db with
      | .found ev2 =>
        let related := db.filter (fun x =>
          x.tags.any (fun t => ev2.tags.contains t) && x.userId == u.id
            && x.makePrivate == false && x.id != ev2.id)
        .renderDetail ev2 (related.take 4)
      | _ => .raised
    else .forbidden

/-- The add/edit event form, an opaque validator (forms.py is not in the
sources): a validity bit plus the sanitized event fields it would save
(spec §3 lists the Event fields the form carries). -/
structure EventForm where
  valid : Bool
  name : String
  category : Nat
  makePrivate : Bool
  tags : List Nat
deriving DecidableEq, Repr

/-- `AddEventView.post` (login required): on a valid form, stamp the new
record with the submitter as owner, derive the slug from the submitted
name, persist, redirect to the event; otherwise re-render the form. -/
def addEventPost (db : List Event) (u : User) (f : EventForm) (newId : Nat) :
    ViewResult × List Event :=
  if f.valid then
    let ev : Event :=
      { id := newId
        name := f.name
        slug := slugify f.name
        category := f.category
        userId := u.id
        makePrivate := f.makePrivate
        tags := f.tags
        usersAttending := [] }
    (.redirected ev.slug, db ++ [ev])
  else (.renderForm, db)

/-- `EditEventView.post` (login required): `get_object_or_404(Event,
slug=slug)` with no visibility condition; a non-owner gets Forbidden;
on a valid form the record is updated in place with the slug re-derived
from the (possibly changed) name, then a redirect to the updated event's
URL; an invalid form re-renders. -/
def editEventPost (db : List Event) (u : User) (slug : String) (f : EventForm) :
    ViewResult × List Event :=
  match fetchOr404 (fun x => x.slug == slug) db with
  | .missing => (.notFound, db)
  | .raised => (.raised, db)
  | .found event =>
    if u.id = event.userId then
      if f.valid then
        let ed : Event :=
          { event with
              name := f.name
              slug := slugify f.name
              category := f.category
              makePrivate := f.makePrivate
              tags := f.tags }
        (.redirected ed.slug, updateEvent db event.id (fun _ => ed))
      else (.renderForm, db)
    else (.forbidden, db)

def invalidSearchMsg : String := "The entry you made is invalid :( "

/-- `SearchEventView.get`: a missing or empty `search` parameter yields
the invalid-entry message before any query; otherwise an authenticated
user gets `Event.private.filter(name__contains=query, user=u) |
Event.public.filter(name__icontains=query)` — one ORed query over the
events table — and an anonymous caller the public case-insensitive match
only. -/
def searchEventGet (db : List Event) (user : Option User)
    (query : Option String) : ViewResult :=
  match query with
  | none => .message invalidSearchMsg
  | some q =>
    if q = "" then .message invalidSearchMsg
    else
      match user with
      | some u => .renderList (db.filter (fun e =>
          (e.makePrivate == true && strContains e.name q && e.userId == u.id)
            || (e.makePrivate == false && strIContains e.name q)))
      | none => .renderList (db.filter (fun e =>
          e.makePrivate == false && strIContains e.name q))

/-- `Attendlist.get` (login required):
`Event.public.filter(users_attending=request.user)`. -/
def attendlistGet (db : List Event) (u : User) : ViewResult :=
  .renderList (db.filter (fun e =>
    e.makePrivate == false && e.usersAttending.contains u.id))

/-! ### Helper lemmas -/

/-- In a duplicate-free store, a filter satisfied by `e` alone returns
exactly `[e]`. -/
theorem filter_eq_singleton_of_unique {α : Type} {l : List α} {e : α} {p : α → Bool}
    (hnd : l.Nodup) (he : e ∈ l) (hpe : p e = true)
    (hun : ∀ x ∈ l, p x = true → x = e) :
    l.filter p = [e] := by
  induction l with
  | nil => cases he
  | cons a t ih =>
    have hnd' := List.nodup_cons.mp hnd
    rcases List.mem_cons.mp he with rfl | hmem
    · have ht : t.filter p = [] := by
        rw [List.filter_eq_nil_iff]
        intro x hx hpx
        exact hnd'.1 ((hun x (List.mem_cons_of_mem _ hx) (by simpa using hpx)) ▸ hx)
      rw [List.filter_cons_of_pos hpe, ht]
    · have hpa : ¬ (p a = true) := fun hpa =>
        hnd'.1 ((hun a (List.mem_cons_self a t) hpa) ▸ hmem)
      rw [List.filter_cons_of_neg (by simpa using hpa)]
      exact ih hnd'.2 hmem (fun x hx hpx => hun x (List.mem_cons_of_mem _ hx) hpx)

/-! ### Claim theorems -/

/-- C5: for every search request whose query parameter is missing or
empty, the handler returns the explicit invalid-input response (the
literal invalid-entry message, carrying no event data and computed
before any filter touches the event store — the result is the same for
every store and every caller). -/
theorem C5_empty_search_is_invalid_response (db : List Event) (user : Option User) :
    searchEventGet db user none = .message invalidSearchMsg ∧
    searchEventGet db user (some "") = .message invalidSearchMsg ∧
    searchEventGet db user none = searchEventGet [] user none ∧
    searchEventGet db user (some "") = searchEventGet [] user (some "") := by
  refine ⟨rfl, by simp [searchEventGet], by simp [searchEventGet], by simp [searchEventGet]⟩

/-- C10: the attend-list view renders exactly the public events whose
attendee set contains the requesting user; in particular a private event
the user attends never appears. -/
theorem C10_attendlist_exactly_public_attended (db : List Event) (u : User) :
    ∃ l, attendlistGet db u = .renderList l ∧
      (∀ e : Event, e ∈ l ↔ e ∈ db ∧ e.makePrivate = false ∧ u.id ∈ e.usersAttending) ∧
      (∀ e : Event, e.makePrivate = true → e ∉ l) := by
  refine ⟨_, rfl, ?_, ?_⟩
  · intro e
    simp [List.mem_filter, and_assoc]
  · intro e hpriv hmem
    simp [List.mem_filter, hpriv] at hmem

/-- A private event carrying the "music" tag. -/
def secretEvent : Event := ⟨1, "Secret Party", "secret-party", 0, 5, true, [1], []⟩

def musicTag : Tag := ⟨1, "music"⟩

/-- C2 (code bug): tag browsing filters `Event.objects` — the default
all-rows manager — so a private event whose tag matches is included in
the response for any requester, contradicting the public-only policy the
spec assigns to tag browsing. -/
theorem C2_tag_browse_includes_private_event :
    eventTagGet [musicTag] [secretEvent] "music" = .renderList [secretEvent] ∧
    secretEvent.makePrivate = true := by
  exact ⟨by decide, by decide⟩

def musicCategory : Category := ⟨1, "Music", "music"⟩

/-- C3 (code bug): the category-detail handler looks the category up
with `Category.objects.get(slug=slug)`, which raises `DoesNotExist` when
no category has the requested slug; the exception escapes the handler
instead of the clean not-found result the spec requires. -/
theorem C3_category_detail_lookup_raises :
    categoryDetailGet [musicCategory] [] none "sports" = .raised := by decide

/-- A public event used as a POST target. -/
def partyEvent : Event := ⟨3, "Party", "party", 0, 5, false, [], []⟩

/-- C4 (code bug): an authenticated POST to the event-detail endpoint
with no recognized attendance token and an invalid comment form reaches
the end of `EventDetailView.post` without a return statement: the
handler produces no response at all (Django turns the `None` into a
server error) instead of re-rendering the detail page with the invalid
form. -/
theorem C4_invalid_comment_branch_returns_none :
    (eventDetailPost [partyEvent] [] ⟨7, false⟩ "party" [] ⟨false, "hello"⟩).1
      = .noResponse := by decide

/-- C1: for every private event E with owner U (in a store satisfying the
spec's Event invariant — distinct rows, unique slugs, slug derived from
name), a GET of the private-event detail for E's slug by an
authenticated user other than U is Forbidden, and the same GET by U
succeeds and renders E. -/
theorem C1_private_detail_owner_only (db : List Event) (e : Event) (u v : User)
    (hnd : db.Nodup)
    (hslug : ∀ x ∈ db, ∀ y ∈ db, x.slug = y.slug → x = y)
    (hder : ∀ x ∈ db, x.slug = slugify x.name)
    (he : e ∈ db) (hpriv : e.makePrivate = true)
    (hown : u.id = e.userId) (hother : v.id ≠ e.userId) :
    privateEventDetailGet db v e.slug = .forbidden ∧
    ∃ rel, privateEventDetailGet db u e.slug = .renderDetail e rel := by
  have h1 : db.filter (fun x => x.makePrivate == true && x.slug == e.slug) = [e] := by
    apply filter_eq_singleton_of_unique hnd he (by simp [hpriv])
    intro x hx hpx
    simp only [Bool.and_eq_true, beq_iff_eq] at hpx
    exact hslug x hx e he hpx.2
  have hfetch : get_private_event db e.slug = .found e := by
    unfold get_private_event fetchOr404
    rw [h1]
  constructor
  · unfold privateEventDetailGet
    simp only [hfetch]
    rw [if_neg hother]
  · have h2 : db.filter (fun x => x.makePrivate == true && x.userId == u.id
        && x.name == e.name) = [e] := by
      apply filter_eq_singleton_of_unique hnd he (by simp [hpriv, hown])
      intro x hx hpx
      simp only [Bool.and_eq_true, beq_iff_eq] at hpx
      exact hslug x hx e he (by rw [hder x hx, hder e he, hpx.2])
    have hq2 : fetchGet (fun x => x.makePrivate == true && x.userId == u.id
        && x.name == e.name) db = .found e := by
      unfold fetchGet
      rw [h2]
    have hres : privateEventDetailGet db u e.slug
        = .renderDetail e ((db.filter (fun x =>
            x.tags.any (fun t => e.tags.contains t) && x.userId == u.id
              && x.makePrivate == false && x.id != e.id)).take 4) := by
      unfold privateEventDetailGet
      simp only [hfetch]
      rw [if_pos hown]
      simp only [hq2]
    exact ⟨_, hres⟩

/-- C1 witness: a single private event "Party" owned by user 1; user 2
is refused, user 1 gets the rendered event. -/
theorem C1_private_detail_owner_only_witness :
    privateEventDetailGet [⟨1, "Party", "party", 0, 1, true, [], []⟩]
        ⟨2, false⟩ "party" = .forbidden ∧
    ∃ rel, privateEventDetailGet [⟨1, "Party", "party", 0, 1, true, [], []⟩]
        ⟨1, false⟩ "party" = .renderDetail ⟨1, "Party", "party", 0, 1, true, [], []⟩ rel :=
  C1_private_detail_owner_only [⟨1, "Party", "party", 0, 1, true, [], []⟩]
    ⟨1, "Party", "party", 0, 1, true, [], []⟩ ⟨1, false⟩ ⟨2, false⟩
    (by decide) (by decide) (by decide) (by decide) (by decide) (by decide) (by decide)

/-- The spec's wording of a private search hit: one of the caller's own
private events whose name contains the query as a case-sensitive
substring. -/
def SpecPrivateHit (u : User) (q : String) (e : Event) : Prop :=
  e.makePrivate = true ∧ e.userId = u.id ∧ q.toList <:+: e.name.toList

/-- The spec's wording of a public search hit: a public event whose name
contains the query as a case-insensitive substring. -/
def SpecPublicHit (q : String) (e : Event) : Prop :=
  e.makePrivate = false ∧
    q.toList.map Char.toLower <:+: e.name.toList.map Char.toLower

/-- C6: for a non-empty query, an authenticated caller's search result
is exactly the deduplicated union of the spec's private hits and public
hits, and an anonymous caller's result is exactly the public hits. -/
theorem C6_search_result_semantics (db : List Event) (u : User) (q : String)
    (hq : q ≠ "") (hnd : db.Nodup) :
    (∃ l, searchEventGet db (some u) (some q) = .renderList l ∧ l.Nodup ∧
      ∀ e : Event, e ∈ l ↔ e ∈ db ∧ (SpecPrivateHit u q e ∨ SpecPublicHit q e)) ∧
    (∃ l, searchEventGet db none (some q) = .renderList l ∧ l.Nodup ∧
      ∀ e : Event, e ∈ l ↔ e ∈ db ∧ SpecPublicHit q e) := by
  constructor
  · refine ⟨db.filter (fun e =>
        (e.makePrivate == true && strContains e.name q && e.userId == u.id)
          || (e.makePrivate == false && strIContains e.name q)),
      ?_, hnd.filter _, ?_⟩
    · simp [searchEventGet, hq]
    · intro e
      simp only [List.mem_filter, Bool.or_eq_true, Bool.and_eq_true, beq_iff_eq,
        strContains, strIContains, containsSub_iff, SpecPrivateHit, SpecPublicHit]
      tauto
  · refine ⟨db.filter (fun e =>
        e.makePrivate == false && strIContains e.name q), ?_, hnd.filter _, ?_⟩
    · simp [searchEventGet, hq]
    · intro e
      simp only [List.mem_filter, Bool.and_eq_true, beq_iff_eq,
        strIContains, containsSub_iff, SpecPublicHit]

/-- C6 witness: query "gala" over a store holding one public event
"Annual Gala" and one private event "gala night" owned by the caller. -/
theorem C6_search_result_semantics_witness :
    (∃ l, searchEventGet [⟨2, "Annual Gala", "annual-gala", 0, 1, false, [], []⟩,
        ⟨3, "gala night", "gala-night", 0, 1, true, [], []⟩]
        (some ⟨1, false⟩) (some "gala") = .renderList l ∧ l.Nodup ∧
      ∀ e : Event, e ∈ l ↔
        e ∈ [⟨2, "Annual Gala", "annual-gala", 0, 1, false, [], []⟩,
             ⟨3, "gala night", "gala-night", 0, 1, true, [], []⟩] ∧
          (SpecPrivateHit ⟨1, false⟩ "gala" e ∨ SpecPublicHit "gala" e)) ∧
    (∃ l, searchEventGet [⟨2, "Annual Gala", "annual-gala", 0, 1, false, [], []⟩,
        ⟨3, "gala night", "gala-night", 0, 1, true, [], []⟩]
        none (some "gala") = .renderList l ∧ l.Nodup ∧
      ∀ e : Event, e ∈ l ↔
        e ∈ [⟨2, "Annual Gala", "annual-gala", 0, 1, false, [], []⟩,
             ⟨3, "gala night", "gala-night", 0, 1, true, [], []⟩] ∧
          SpecPublicHit "gala" e) :=
  C6_search_result_semantics
    [⟨2, "Annual Gala", "annual-gala", 0, 1, false, [], []⟩,
     ⟨3, "gala night", "gala-night", 0, 1, true, [], []⟩]
    ⟨1, false⟩ "gala" (by decide) (by decide)

/-- C7: whenever an event detail view renders — the public one and the
private one each taken on its own — the related-events list excludes
the target event and has at most 4 entries, and for the public view
holds only public events. -/
theorem C7_related_events_bounds (db : List Event) (u : User)
    (slug : String) (e : Event) (rel : List Event) :
    (eventDetailGet db slug = .renderDetail e rel →
      e ∉ rel ∧ rel.length ≤ 4 ∧ ∀ x ∈ rel, x.makePrivate = false) ∧
    (privateEventDetailGet db u slug = .renderDetail e rel →
      e ∉ rel ∧ rel.length ≤ 4) := by
  constructor
  · intro h1
    unfold eventDetailGet at h1
    cases hg1 : get_event db slug <;> rw [hg1] at h1 <;> simp only [] at h1
    case missing => cases h1
    case raised => cases h1
    case found ev =>
      have hev : ev = e ∧ (db.filter (fun x =>
          x.makePrivate == false && x.tags.any (fun t => ev.tags.contains t)
            && x.id != ev.id)).take 4 = rel := by
        cases h1
        exact ⟨rfl, rfl⟩
      obtain ⟨rfl, hrel⟩ := hev
      subst hrel
      refine ⟨?_, List.length_take_le _ _, ?_⟩
      · intro hmem
        have := List.mem_filter.mp (List.take_subset _ _ hmem)
        simp at this
      · intro x hx
        have := List.mem_filter.mp (List.take_subset _ _ hx)
        simp only [Bool.and_eq_true, beq_iff_eq] at this
        exact this.2.1.1
  · intro h2
    unfold privateEventDetailGet at h2
    cases hg2 : get_private_event db slug <;> rw [hg2] at h2 <;> simp only [] at h2
    case missing => cases h2
    case raised => cases h2
    case found pv =>
      by_cases hu : u.id = pv.userId
      · rw [if_pos hu] at h2
        cases hg3 : fetchGet (fun x => x.makePrivate == true && x.userId == u.id
            && x.name == pv.name) db <;> rw [hg3] at h2 <;> simp only [] at h2
        rotate_left
        · cases h2
        · cases h2
        rename_i pv2
        · have hpv : pv2 = e ∧ (db.filter (fun x =>
              x.tags.any (fun t => pv2.tags.contains t) && x.userId == u.id
                && x.makePrivate == false && x.id != pv2.id)).take 4 = rel := by
            cases h2
            exact ⟨rfl, rfl⟩
          obtain ⟨rfl, hrel2⟩ := hpv
          subst hrel2
          refine ⟨?_, List.length_take_le _ _⟩
          intro hmem
          have := List.mem_filter.mp (List.take_subset _ _ hmem)
          simp at this
      · rw [if_neg hu] at h2
        cases h2

/-- C7 witness: a store with two public events sharing a tag and a
private event of user 1; the public detail view renders "Gala" and,
independently, the private detail view renders "Secret", each within
the bounds of the theorem. -/
theorem C7_related_events_bounds_witness :
    ((⟨1, "Gala", "gala", 0, 1, false, [10], []⟩ : Event)
        ∉ [(⟨2, "Ball", "ball", 0, 1, false, [10], []⟩ : Event)] ∧
      [(⟨2, "Ball", "ball", 0, 1, false, [10], []⟩ : Event)].length ≤ 4 ∧
      ∀ x ∈ [(⟨2, "Ball", "ball", 0, 1, false, [10], []⟩ : Event)],
        x.makePrivate = false) ∧
    ((⟨3, "Secret", "secret", 0, 1, true, [10], []⟩ : Event)
        ∉ [(⟨1, "Gala", "gala", 0, 1, false, [10], []⟩ : Event),
           (⟨2, "Ball", "ball", 0, 1, false, [10], []⟩ : Event)] ∧
      [(⟨1, "Gala", "gala", 0, 1, false, [10], []⟩ : Event),
       (⟨2, "Ball", "ball", 0, 1, false, [10], []⟩ : Event)].length ≤ 4) :=
  ⟨(C7_related_events_bounds
      [⟨1, "Gala", "gala", 0, 1, false, [10], []⟩,
       ⟨2, "Ball", "ball", 0, 1, false, [10], []⟩,
       ⟨3, "Secret", "secret", 0, 1, true, [10], []⟩]
      ⟨1, false⟩ "gala" ⟨1, "Gala", "gala", 0, 1, false, [10], []⟩
      [⟨2, "Ball", "ball", 0, 1, false, [10], []⟩]).1 (by decide),
   (C7_related_events_bounds
      [⟨1, "Gala", "gala", 0, 1, false, [10], []⟩,
       ⟨2, "Ball", "ball", 0, 1, false, [10], []⟩,
       ⟨3, "Secret", "secret", 0, 1, true, [10], []⟩]
      ⟨1, false⟩ "secret" ⟨3, "Secret", "secret", 0, 1, true, [10], []⟩
      [⟨1, "Gala", "gala", 0, 1, false, [10], []⟩,
       ⟨2, "Ball", "ball", 0, 1, false, [10], []⟩]).2 (by decide)⟩

/-- POST body holding the attendance-add token keyed by the event id. -/
def addPost (e : Event) : List (String × String) :=
  [(toString e.id, "Add to attend-list")]

/-- POST body holding the attendance-remove token keyed by the event id. -/
def removePost (e : Event) : List (String × String) :=
  [(toString e.id, "Remove from attend-list")]

theorem get_event_of_filter {db : List Event} {slug : String} {e : Event}
    (h : db.filter (fun x => x.makePrivate == false && x.slug == slug) = [e]) :
    get_event db slug = .found e := by
  unfold get_event fetchOr404
  rw [h]

/-- Updating the row with `e`'s id rewrites the unique `p`-match from
`e` to `f e`, provided `f` does not change whether `p` holds. -/
theorem filter_updateEvent {db : List Event} {e : Event} {p : Event → Bool}
    (f : Event → Event)
    (hid : ∀ x ∈ db, x.id = e.id → x = e)
    (hfilter : db.filter p = [e])
    (hpf : p (f e) = p e) :
    (updateEvent db e.id f).filter p = [f e] := by
  unfold updateEvent
  rw [List.filter_map]
  have hcong : db.filter (p ∘ fun x => if x.id == e.id then f x else x)
      = db.filter p := by
    apply List.filter_congr
    intro x hx
    simp only [Function.comp]
    by_cases hxe : x.id = e.id
    · have hx' := hid x hx hxe
      subst hx'
      simp [hpf]
    · rw [if_neg (by simpa using hxe)]
  rw [hcong, hfilter]
  simp

theorem updateEvent_id_unique {db : List Event} {e : Event} (f : Event → Event)
    (hid : ∀ x ∈ db, x.id = e.id → x = e) :
    ∀ x ∈ updateEvent db e.id f, x.id = e.id → x = f e := by
  intro x hx hxe
  unfold updateEvent at hx
  rcases List.mem_map.mp hx with ⟨y, hy, rfl⟩
  by_cases hye : y.id = e.id
  · have hy' := hid y hy hye
    subst hy'
    simp
  · rw [if_neg (by simpa using hye)] at hxe ⊢
    exact absurd hxe hye

theorem m2m_add_then_remove (l : List Nat) (x : Nat) :
    m2mRemove (m2mAdd l x) x = m2mRemove l x := by
  unfold m2mAdd m2mRemove
  by_cases hx : x ∈ l
  · rw [if_pos hx]
  · rw [if_neg hx, List.filter_append]
    simp

theorem m2mRemove_of_notMem {l : List Nat} {x : Nat} (h : x ∉ l) :
    m2mRemove l x = l := by
  unfold m2mRemove
  rw [List.filter_eq_self]
  intro a ha
  simp only [bne_iff_ne, ne_eq]
  exact fun heq => h (heq ▸ ha)

theorem m2mAdd_of_mem {l : List Nat} {x : Nat} (h : x ∈ l) : m2mAdd l x = l := by
  unfold m2mAdd
  rw [if_pos h]

/-- Reduction of the POST handler on the attendance-add token. -/
theorem eventDetailPost_add_eq {db : List Event} {comments : List (Nat × String)}
    {u : User} {slug : String} {post : List (String × String)}
    {form : CommentForm} {e : Event}
    (hget : get_event db slug = .found e)
    (hpost : postGet post (toString e.id) = some "Add to attend-list") :
    eventDetailPost db comments u slug post form
      = (.message addedMsg,
         updateEvent db e.id
           (fun x => { x with usersAttending := m2mAdd x.usersAttending u.id }),
         comments) := by
  unfold eventDetailPost
  rw [hget]
  simp [hpost]

/-- Reduction of the POST handler on the attendance-remove token. -/
theorem eventDetailPost_remove_eq {db : List Event} {comments : List (Nat × String)}
    {u : User} {slug : String} {post : List (String × String)}
    {form : CommentForm} {e : Event}
    (hget : get_event db slug = .found e)
    (hpost : postGet post (toString e.id) = some "Remove from attend-list") :
    eventDetailPost db comments u slug post form
      = (.message removedMsg,
         updateEvent db e.id
           (fun x => { x with usersAttending := m2mRemove x.usersAttending u.id }),
         comments) := by
  unfold eventDetailPost
  rw [hget]
  simp [hpost]

/-- A public event user 7 is already attending. -/
def attendedEvent : Event := ⟨4, "Gala", "gala", 0, 2, false, [], [7]⟩

/-- C8 (counterexample): when the user is already in the attendee set,
the add action is a no-op and the remove action then deletes them, so
the add-then-remove round trip does not return the attendee set to its
prior state. -/
theorem C8_round_trip_counterexample :
    (eventDetailPost
        (eventDetailPost [attendedEvent] [] ⟨7, false⟩ "gala"
          (addPost attendedEvent) ⟨true, ""⟩).2.1
        (eventDetailPost [attendedEvent] [] ⟨7, false⟩ "gala"
          (addPost attendedEvent) ⟨true, ""⟩).2.2
        ⟨7, false⟩ "gala" (removePost attendedEvent) ⟨true, ""⟩).2.1
      ≠ [attendedEvent] := by decide

/-- C8 (amended): performing the attendance add action then the remove
action (same user, same event, no interleaving change) leaves the
event's attendee set equal to its prior state with the user removed; in
particular it restores the prior state exactly when the user was not
already an attendee.  Adding an already-present attendee and removing an
absent one are no-ops that still answer with the success message, not
errors. -/
theorem C8_attendance_add_remove_amended (db db1 db2 db3 : List Event)
    (comments c1 c2 c3 : List (Nat × String)) (r1 r2 r3 : ViewResult)
    (u : User) (e : Event) (form : CommentForm)
    (hnd : db.Nodup) (he : e ∈ db) (hpub : e.makePrivate = false)
    (hslug : ∀ x ∈ db, x.makePrivate = false → x.slug = e.slug → x = e)
    (hid : ∀ x ∈ db, x.id = e.id → x = e)
    (hstep1 : eventDetailPost db comments u e.slug (addPost e) form = (r1, db1, c1))
    (hstep2 : eventDetailPost db1 c1 u e.slug (removePost e) form = (r2, db2, c2))
    (hstep3 : eventDetailPost db comments u e.slug (removePost e) form = (r3, db3, c3)) :
    r1 = .message addedMsg ∧ r2 = .message removedMsg ∧ r3 = .message removedMsg ∧
    db2.filter (fun x => x.id == e.id)
      = [{ e with usersAttending := e.usersAttending.filter (fun a => a != u.id) }] ∧
    (u.id ∉ e.usersAttending → db2.filter (fun x => x.id == e.id) = [e]) ∧
    (u.id ∈ e.usersAttending → db1.filter (fun x => x.id == e.id) = [e]) ∧
    (u.id ∉ e.usersAttending → db3.filter (fun x => x.id == e.id) = [e]) := by
  have hpSlug : db.filter (fun x => x.makePrivate == false && x.slug == e.slug) = [e] := by
    apply filter_eq_singleton_of_unique hnd he (by simp [hpub])
    intro x hx hpx
    simp only [Bool.and_eq_true, beq_iff_eq] at hpx
    exact hslug x hx hpx.1 hpx.2
  have hget : get_event db e.slug = .found e := get_event_of_filter hpSlug
  have hpostAdd : postGet (addPost e) (toString e.id) = some "Add to attend-list" := by
    simp [postGet, addPost]
  have hpostRem : postGet (removePost e) (toString e.id)
      = some "Remove from attend-list" := by
    simp [postGet, removePost]
  have hfid0 : db.filter (fun x => x.id == e.id) = [e] := by
    apply filter_eq_singleton_of_unique hnd he (by simp)
    intro x hx hpx
    exact hid x hx (by simpa using hpx)
  -- step 1: the add action
  have hs1 := @eventDetailPost_add_eq db comments u e.slug (addPost e) form e
    hget hpostAdd
  rw [hs1] at hstep1
  simp only [Prod.mk.injEq] at hstep1
  obtain ⟨hr1, hdb1, hc1⟩ := hstep1
  subst hr1; subst hdb1; subst hc1
  have hid1 := updateEvent_id_unique
    (fun x => { x with usersAttending := m2mAdd x.usersAttending u.id }) hid
  have hfilterSlug1 := filter_updateEvent
    (fun x => { x with usersAttending := m2mAdd x.usersAttending u.id })
    hid hpSlug rfl
  have hget1 := get_event_of_filter hfilterSlug1
  have hfid1 := filter_updateEvent
    (fun x => { x with usersAttending := m2mAdd x.usersAttending u.id })
    hid hfid0 rfl
  -- step 2: the remove action on the updated store
  have hs2 := @eventDetailPost_remove_eq
    (updateEvent db e.id (fun x => { x with usersAttending := m2mAdd x.usersAttending u.id }))
    comments u e.slug (removePost e) form
    ((fun x => { x with usersAttending := m2mAdd x.usersAttending u.id }) e)
    hget1 hpostRem
  rw [hs2] at hstep2
  simp only [Prod.mk.injEq] at hstep2
  obtain ⟨hr2, hdb2, hc2⟩ := hstep2
  subst hr2; subst hdb2; subst hc2
  have hfid2 := filter_updateEvent
    (fun x => { x with usersAttending := m2mRemove x.usersAttending u.id })
    hid1 hfid1 rfl
  -- step 3: the remove action directly on the original store
  have hs3 := @eventDetailPost_remove_eq db comments u e.slug (removePost e) form e
    hget hpostRem
  rw [hs3] at hstep3
  simp only [Prod.mk.injEq] at hstep3
  obtain ⟨hr3, hdb3, hc3⟩ := hstep3
  subst hr3; subst hdb3; subst hc3
  have hfid3 := filter_updateEvent
    (fun x => { x with usersAttending := m2mRemove x.usersAttending u.id })
    hid hfid0 rfl
  have hA : (fun x => { x with usersAttending := m2mRemove x.usersAttending u.id })
      ((fun x => { x with usersAttending := m2mAdd x.usersAttending u.id }) e)
      = { e with usersAttending := m2mRemove e.usersAttending u.id } := by
    show ({ e with usersAttending := m2mRemove (m2mAdd e.usersAttending u.id) u.id } : Event) = _
    rw [m2m_add_then_remove]
  refine ⟨rfl, rfl, rfl, ?_, ?_, ?_, ?_⟩
  · rw [hfid2, hA]
    rfl
  · intro h
    rw [hfid2, hA, m2mRemove_of_notMem h]
  · intro h
    rw [hfid1]
    have : (fun x => { x with usersAttending := m2mAdd x.usersAttending u.id }) e = e := by
      show ({ e with usersAttending := m2mAdd e.usersAttending u.id } : Event) = e
      rw [m2mAdd_of_mem h]
    rw [this]
  · intro h
    rw [hfid3]
    have : (fun x => { x with usersAttending := m2mRemove x.usersAttending u.id }) e = e := by
      show ({ e with usersAttending := m2mRemove e.usersAttending u.id } : Event) = e
      rw [m2mRemove_of_notMem h]
    rw [this]

/-- A public event with an empty attendee set, and its state after user
7 is added. -/
def galaEvent : Event := ⟨4, "Gala", "gala", 0, 2, false, [], []⟩

def galaEventAttended : Event := ⟨4, "Gala", "gala", 0, 2, false, [], [7]⟩

/-- C8 witness: user 7 (not attending) adds then removes attendance on
"gala"; the store returns to its prior state. -/
theorem C8_attendance_add_remove_amended_witness :
    ViewResult.message addedMsg = ViewResult.message addedMsg ∧
    ViewResult.message removedMsg = ViewResult.message removedMsg ∧
    ViewResult.message removedMsg = ViewResult.message removedMsg ∧
    List.filter (fun x => x.id == galaEvent.id) [galaEvent] = [galaEvent] ∧
    ((7 : Nat) ∉ galaEvent.usersAttending →
      List.filter (fun x => x.id == galaEvent.id) [galaEvent] = [galaEvent]) ∧
    ((7 : Nat) ∈ galaEvent.usersAttending →
      List.filter (fun x => x.id == galaEvent.id) [galaEventAttended] = [galaEvent]) ∧
    ((7 : Nat) ∉ galaEvent.usersAttending →
      List.filter (fun x => x.id == galaEvent.id) [galaEvent] = [galaEvent]) :=
  C8_attendance_add_remove_amended [galaEvent] [galaEventAttended] [galaEvent] [galaEvent]
    [] [] [] [] (.message addedMsg) (.message removedMsg) (.message removedMsg)
    ⟨7, false⟩ galaEvent ⟨true, ""⟩
    (by decide) (by decide) (by decide) (by decide) (by decide)
    (by decide) (by decide) (by decide)

/-- C9: every valid create submission (on any store, by any submitter)
stores an event whose slug is the slugified submitted name, and —
independently — every valid edit submission by the owner of the event
the slug resolves to regenerates the slug from the (possibly changed)
name; in particular "Spring Fest" slugifies to "spring-fest" and
"Spring Fest 2" to "spring-fest-2". -/
theorem C9_slug_derived_from_name (db : List Event) (u : User) (f g : EventForm)
    (newId : Nat) (slug : String) (e : Event) :
    (f.valid = true →
      ∃ ev : Event, addEventPost db u f newId = (.redirected ev.slug, db ++ [ev]) ∧
        ev.name = f.name ∧ ev.slug = slugify f.name ∧ ev.userId = u.id) ∧
    (g.valid = true → db.filter (fun x => x.slug == slug) = [e] → u.id = e.userId →
      ∃ ed : Event, editEventPost db u slug g
          = (.redirected ed.slug, updateEvent db e.id (fun _ => ed)) ∧
        ed.name = g.name ∧ ed.slug = slugify g.name) ∧
    slugify "Spring Fest" = "spring-fest" ∧
    slugify "Spring Fest 2" = "spring-fest-2" := by
  refine ⟨?_, ?_, by decide, by decide⟩
  · intro hf
    refine ⟨⟨newId, f.name, slugify f.name, f.category, u.id, f.makePrivate, f.tags, []⟩,
      ?_, rfl, rfl, rfl⟩
    unfold addEventPost
    rw [if_pos hf]
  · intro hg hfind hown
    refine ⟨⟨e.id, g.name, slugify g.name, g.category, e.userId, g.makePrivate,
        g.tags, e.usersAttending⟩, ?_, rfl, rfl⟩
    unfold editEventPost fetchOr404
    rw [hfind]
    simp only []
    rw [if_pos hown, if_pos hg]

/-- An existing event of user 5 to be edited. -/
def oldNameEvent : Event := ⟨6, "Old Name", "old-name", 0, 5, false, [], []⟩

/-- C9 witness: user 5 creates "Spring Fest" on an empty store (owning
no prior event) and, separately, renames the stored event "Old Name" to
"Spring Fest 2". -/
theorem C9_slug_derived_from_name_witness :
    (∃ ev : Event, addEventPost [] ⟨5, false⟩
          ⟨true, "Spring Fest", 0, false, []⟩ 9
        = (.redirected ev.slug, [] ++ [ev]) ∧
      ev.name = "Spring Fest" ∧ ev.slug = slugify "Spring Fest" ∧ ev.userId = 5) ∧
    (∃ ed : Event, editEventPost [oldNameEvent] ⟨5, false⟩ "old-name"
          ⟨true, "Spring Fest 2", 0, false, []⟩
        = (.redirected ed.slug, updateEvent [oldNameEvent] oldNameEvent.id (fun _ => ed)) ∧
      ed.name = "Spring Fest 2" ∧ ed.slug = slugify "Spring Fest 2") ∧
    slugify "Spring Fest" = "spring-fest" ∧
    slugify "Spring Fest 2" = "spring-fest-2" :=
  ⟨(C9_slug_derived_from_name [] ⟨5, false⟩ ⟨true, "Spring Fest", 0, false, []⟩
      ⟨true, "", 0, false, []⟩ 9 "" oldNameEvent).1 (by decide),
   (C9_slug_derived_from_name [oldNameEvent] ⟨5, false⟩
      ⟨true, "Spring Fest", 0, false, []⟩ ⟨true, "Spring Fest 2", 0, false, []⟩
      9 "old-name" oldNameEvent).2.1 (by decide) (by decide) (by decide),
   by decide, by decide⟩

end Evnts
